import Mathlib

/-!
Verification development for the Neuron suggestion pipeline
(`src/baseline.js` and `src/index.js`).

The JavaScript source is shallowly embedded as executable Lean
definitions:

* the workspace file system is an association list from absolute path to
  file content (`Fs`); `fs.readFileSync` becomes lookup, `fs.writeFileSync`
  becomes cons;
* Node's `crypto.createHash("sha256")` is an external library, so the
  digest is a parameter `hash : String → String` of every definition that
  uses it (`HexOk` captures the shape of a real hex digest where a proof
  needs it);
* `JSON.parse` is likewise external and becomes a parameter
  `parse : String → Option Json` returning `none` where `JSON.parse`
  would throw;
* POSIX `path.resolve` / `path.join` / `path.relative` are modelled on
  `/`-separated components (the service runs on Linux; `workdir` comes
  from `fs.mkdtempSync` and is always an absolute path).
-/

/-! ## JSON values (result of `JSON.parse`)

Numbers are modelled as `Int`: the only numeric constraint in the plan
schema is `{ type: "integer", minimum: 1 }`, and every concrete input in
this development is an integer literal.  Objects produced by `JSON.parse`
have pairwise-distinct keys, so a first-match lookup is faithful. -/

inductive Json where
  | null
  | bool (b : Bool)
  | num (n : Int)
  | str (s : String)
  | arr (elems : List Json)
  | obj (fields : List (String × Json))

/-- Property access `j.k` on a parsed JSON value: `none` models JavaScript
`undefined` (non-object receiver or absent key). -/
def jGet (j : Json) (k : String) : Option Json :=
  match j with
  | .obj kvs => (kvs.find? (fun e => e.1 == k)).map (·.2)
  | _ => none

/-- Read a field as a string, defaulting to `""`.  A non-string value
compared with `===` against a string is never equal, and a non-string
value used where the code needs a string behaves like the default here at
every call site of this development (see `entryOfJson`). -/
def jStr (j : Option Json) : String :=
  match j with
  | some (.str s) => s
  | _ => ""

/-! ## Character-list string helpers

Self-contained structural recursions (kernel-reducible), used to embed
`String.prototype.startsWith`, `String.prototype.includes` and the
checksum-marker regular expression. -/

/-- Test `leadsWith needle hay`: `hay` begins with `needle`. -/
def leadsWith : List Char → List Char → Bool
  | [], _ => true
  | _ :: _, [] => false
  | a :: n, b :: h => a == b && leadsWith n h

/-- Test `listContains hay needle`: `needle` occurs contiguously in
`hay` (JavaScript `hay.includes(needle)`). -/
def listContains : List Char → List Char → Bool
  | [], needle => needle.isEmpty
  | a :: t, needle => leadsWith needle (a :: t) || listContains t needle

/-- JavaScript `s.startsWith(front)`. -/
def strStartsWith (s front : String) : Bool :=
  leadsWith front.data s.data

/-- JavaScript `hay.includes(needle)`. -/
def containsStr (hay needle : String) : Bool :=
  listContains hay.data needle.data

/-! ## Workspace file system

An association list from absolute path to file content; a later write at
the same path shadows an earlier one. -/

/-- Workspace file-system state. -/
abbrev Fs := List (String × String)

/-- Embedding of `fs.readFileSync(p, "utf8")` as a total lookup: `none` where the read
would throw (file absent).  `fs.existsSync(p)` is `(fsRead fs p).isSome`. -/
def fsRead (fs : Fs) (p : String) : Option String :=
  (fs.find? (fun e => e.1 == p)).map (·.2)

/-- Embedding of `fs.writeFileSync(p, c, "utf8")` (creating parent directories is a
no-op in this model). -/
def fsWrite (fs : Fs) (p c : String) : Fs :=
  (p, c) :: fs

/-! ## POSIX path model (`node:path` on Linux)

Paths are split on `/` into components; normalisation drops empty and `.`
components and lets `..` pop (clamping at the root, as `path.resolve`
does for absolute paths). -/

/-- Split a character list on `/` into components. -/
def splitComps : List Char → List Char → List String
  | [], acc => [String.mk acc.reverse]
  | c :: t, acc =>
      if c == '/' then String.mk acc.reverse :: splitComps t []
      else splitComps t (c :: acc)

/-- One step of POSIX normalisation of an absolute path's components. -/
def normStep (acc : List String) (c : String) : List String :=
  if c == "" || c == "." then acc
  else if c == ".." then acc.dropLast
  else acc ++ [c]

/-- Normalised component list of an absolute path. -/
def normComps (l : List String) : List String :=
  l.foldl normStep []

/-- Join components with `/`. -/
def joinComps : List String → String
  | [] => ""
  | [c] => c
  | c :: rest => c ++ "/" ++ joinComps rest

/-- Render an absolute path from its normalised components. -/
def normAbs (s : String) : String :=
  "/" ++ joinComps (normComps (splitComps s.data []))

/-- Embedding of `path.resolve(root)` for an absolute `root` (the workspace directory
created by `fs.mkdtempSync` is always absolute). -/
def resolveOne (root : String) : String :=
  normAbs root

/-- Embedding of `path.resolve(root, rel)` for an absolute `root`. -/
def resolvePath (root rel : String) : String :=
  if strStartsWith rel "/" then normAbs rel else normAbs (root ++ "/" ++ rel)

/-- Embedding of `path.join(a, b)` for an absolute `a` (joins then normalises). -/
def joinPath (a b : String) : String :=
  normAbs (a ++ "/" ++ b)

/-- Longest-common-prefix removal on component lists. -/
def dropCommon : List String → List String → List String × List String
  | a :: as_, b :: bs =>
      if a == b then dropCommon as_ bs else (a :: as_, b :: bs)
  | as_, bs => (as_, bs)

/-- Embedding of `path.relative(fromP, toP)` for absolute arguments. -/
def pathRelative (fromP toP : String) : String :=
  let f := normComps (splitComps fromP.data [])
  let t := normComps (splitComps toP.data [])
  let (fr, tr) := dropCommon f t
  joinComps (List.replicate fr.length ".." ++ tr)

/-- Path `p` designates a location inside the directory `root` (it is `root`
itself or a strict descendant).  Both arguments normalised absolute. -/
def underRoot (root p : String) : Bool :=
  p == root || strStartsWith p (root ++ "/")

/-! ## `src/baseline.js` -/

/-- A review comment of a suggestion plan (`Comment` entries of the plan
schema at `src/index.js:281`).  `line` is a `Nat`: the schema requires an
integer `≥ 1`, and `fpForComment` interpolates it in decimal. -/
structure Comment where
  path : String
  line : Nat
  severity : String
  title : String
  body : String
deriving DecidableEq

/-- One persisted baseline record (`baseline.suggestions[i]` as written by
`recordComments` at `src/baseline.js:75`). -/
structure BaselineEntry where
  fp : String
  path : String
  file_sha : String
  first_seen_at : String
  updated_at : String
deriving DecidableEq

/-- The per-workspace baseline store.  `shouldSkipComment` and
`recordComments` only ever read the `suggestions` array, so the store is
its `suggestions` field. -/
structure BaselineStore where
  suggestions : List BaselineEntry
deriving DecidableEq

/-- Embedding of `fileSha` (`src/baseline.js:12`): SHA-256 hex digest of the file's
bytes, or `""` (never a thrown error) when the file cannot be read.  The
digest itself is the parameter `hash`. -/
def fileSha (hash : String → String) (fs : Fs) (absPath : String) : String :=
  match fsRead fs absPath with
  | some content => hash content
  | none => ""

/-- Embedding of `fpForComment` (`src/baseline.js:44`): the template literal
`path:line:title`. -/
def fpForComment (c : Comment) : String :=
  c.path ++ ":" ++ toString c.line ++ ":" ++ c.title

/-- Decode one element of a parsed `suggestions` array.  JavaScript reads
`s.fp` and `s.file_sha` and compares them with `===` against non-empty
strings, and tests `s.file_sha` for truthiness; a missing or non-string
field behaves exactly like `""` in both uses, which is the default
`jStr` supplies. -/
def entryOfJson (j : Json) : BaselineEntry :=
  { fp := jStr (jGet j "fp")
    path := jStr (jGet j "path")
    file_sha := jStr (jGet j "file_sha")
    first_seen_at := jStr (jGet j "first_seen_at")
    updated_at := jStr (jGet j "updated_at") }

/-- Embedding of `readBaseline` (`src/baseline.js:26`).  `file` is the content of
`<workdir>/.neuron/baseline.json` (`none`: absent or unreadable);
`parse` models `JSON.parse` (`none`: it would throw).  All failures
collapse to the empty store inside the function's `try`/`catch`. -/
def readBaseline (file : Option String) (parse : String → Option Json) :
    BaselineStore :=
  match file with
  | none => ⟨[]⟩
  | some txt =>
      match parse txt with
      | none => ⟨[]⟩
      | some j =>
          match jGet j "suggestions" with
          | some (.arr l) => ⟨l.map entryOfJson⟩
          | _ => ⟨[]⟩

/-- Embedding of `shouldSkipComment` (`src/baseline.js:50`).  The JavaScript returns
the truthy/falsy value `found.file_sha && sha && found.file_sha === sha`,
consumed only for its truthiness; the embedding returns the corresponding
`Bool`. -/
def shouldSkipComment (hash : String → String) (fs : Fs) (workdir : String)
    (baseline : BaselineStore) (c : Comment) : Bool :=
  let fp := fpForComment c
  let sha := fileSha hash fs (joinPath workdir c.path)
  match baseline.suggestions.find? (fun s => s.fp == fp) with
  | none => false
  | some found => found.file_sha != "" && sha != "" && found.file_sha == sha

/-! ## `src/index.js` — plan schema validator (`JSON_SCHEMA`, Ajv) -/

/-- One comment item of `JSON_SCHEMA.properties.comments.items`
(`src/index.js:284`): object, all five fields required, `path` string,
`line` integer `≥ 1`, `severity` in the enumeration, `title` at most 120
and `body` at most 2000 code points.  Extra properties are allowed. -/
def validComment (j : Json) : Bool :=
  match j with
  | .obj _ =>
      (match jGet j "path" with | some (.str _) => true | _ => false)
      && (match jGet j "line" with | some (.num n) => decide (1 ≤ n) | _ => false)
      && (match jGet j "severity" with
          | some (.str s) => s == "LOW" || s == "MEDIUM" || s == "HIGH" || s == "CRITICAL"
          | _ => false)
      && (match jGet j "title" with | some (.str s) => decide (s.length ≤ 120) | _ => false)
      && (match jGet j "body" with | some (.str s) => decide (s.length ≤ 2000) | _ => false)
  | _ => false

/-- One test item of `JSON_SCHEMA.properties.tests.items`
(`src/index.js:300`): object, all five fields required, `mode` in the
enumeration, `content` a non-empty string. -/
def validTest (j : Json) : Bool :=
  match j with
  | .obj _ =>
      (match jGet j "language" with | some (.str _) => true | _ => false)
      && (match jGet j "framework" with | some (.str _) => true | _ => false)
      && (match jGet j "path" with | some (.str _) => true | _ => false)
      && (match jGet j "mode" with
          | some (.str s) => s == "create" || s == "append_or_create" || s == "replace"
          | _ => false)
      && (match jGet j "content" with | some (.str s) => decide (1 ≤ s.length) | _ => false)
  | _ => false

/-- Embedding of `validatePlan = ajv.compile(JSON_SCHEMA)` (`src/index.js:277`):
the candidate must be an object carrying both required keys `comments`
(array, at most 3 valid items) and `tests` (array, at most 2 valid
items).  There is no coercion step: a missing key fails `required`. -/
def validatePlan (j : Json) : Bool :=
  match j with
  | .obj _ =>
      (match jGet j "comments" with
       | some (.arr l) => decide (l.length ≤ 3) && l.all validComment
       | _ => false)
      && (match jGet j "tests" with
          | some (.arr l) => decide (l.length ≤ 2) && l.all validTest
          | _ => false)
  | _ => false

/-! ## `src/index.js` — plan acquisition (`getLLMPlanWithFallback`) -/

/-- Outcome of one provider call: the returned message content, or a
thrown transport/provider error with its message text. -/
inductive LlmResult where
  | ok (content : String)
  | err (message : String)

/-- What the protocol hands back to the webhook handler, plus an
observation flag: `fallbackIssued` records whether the second provider
request (the unstructured fallback call at `src/index.js:480`) was made
at all. -/
structure PlanOutcome where
  plan : Option Json
  code : String
  fallbackIssued : Bool

/-- Index of the first occurrence of `needle` (JavaScript
`indexOf` returning `-1` becomes `none`). -/
def listIdxOf (needle : List Char) : List Char → Option Nat
  | [] => if needle.isEmpty then some 0 else none
  | a :: t =>
      if leadsWith needle (a :: t) then some 0
      else (listIdxOf needle t).map (· + 1)

/-- Index of the last occurrence of the character `c` (JavaScript
`lastIndexOf`). -/
def listLastIdxOf (c : Char) : List Char → Option Nat
  | [] => none
  | a :: t =>
      match listLastIdxOf c t with
      | some i => some (i + 1)
      | none => if a == c then some 0 else none

/-- Case-insensitive substring test, embedding the `/…/i.test(msg)`
alternations of `src/index.js:495`. -/
def containsCI (hay needle : String) : Bool :=
  listContains hay.toLower.data needle.toLower.data

/-- The `s = indexOf("\x7b")`, `e = lastIndexOf("\x7d")`, `e > s` slice
step shared by both branches of `extractFirstJsonObject`. -/
def extractFromSpan (chars : List Char) : Option (List Char) :=
  match listIdxOf ['\x7b'] chars, listLastIdxOf '\x7d' chars with
  | some s, some e => if s < e then some ((chars.take (e + 1)).drop s) else none
  | _, _ => none

/-- Embedding of the `catch (err2)` message classification at
`src/index.js:494` (case-insensitive substring tests). -/
def classifyLLMError (msg : String) : String :=
  if containsCI msg "quota" || containsCI msg "rate" then "AZURE_QUOTA"
  else if containsCI msg "unauthorized" || containsCI msg "401"
      || containsCI msg "forbidden" || containsCI msg "403" then "AZURE_AUTH"
  else if containsCI msg "model" || containsCI msg "deployment" then "AZURE_DEPLOYMENT"
  else "MODEL_REJECT"

/-- Embedding of `extractFirstJsonObject` (`src/index.js:503`): prefer a brace span
inside the first fenced block — where an unclosed opening fence makes
`inside` the whole text (`text.slice(0)`) — and otherwise fall through to
the outermost brace span of the whole text; `""` when nothing is found. -/
def extractFirstJsonObject (text : String) : String :=
  let l := text.data
  let fence := "\x60\x60\x60".data
  let fromFence : Option (List Char) :=
    match listIdxOf fence l with
    | some i =>
        let afterF := l.drop (i + 3)
        let inside :=
          match listIdxOf fence afterF with
          | some j => afterF.take j
          | none => l
        extractFromSpan inside
    | none => none
  match fromFence with
  | some r => String.mk r
  | none =>
      match extractFromSpan l with
      | some r => String.mk r
      | none => ""

/-- The second `try` block of `getLLMPlanWithFallback`
(`src/index.js:475`): the unstructured fallback request.  A `parse`
failure on the extracted candidate is the `JSON.parse` throw caught by
`catch (err2)`; a V8 `SyntaxError` message matches none of the
classifier's patterns, so it classifies as `MODEL_REJECT`. -/
def fallbackOutcome (parse : String → Option Json) (r2 : LlmResult) : PlanOutcome :=
  match r2 with
  | .ok raw =>
      let candidate := extractFirstJsonObject raw
      if candidate == "" then ⟨none, "JSON_MISSING", true⟩
      else
        match parse candidate with
        | some j =>
            if validatePlan j then ⟨some j, "OK_FALLBACK", true⟩
            else ⟨none, "SCHEMA_INVALID", true⟩
        | none => ⟨none, "MODEL_REJECT", true⟩
  | .err m => ⟨none, classifyLLMError m, true⟩

/-- Embedding of `getLLMPlanWithFallback` (`src/index.js:459`).  `r1` is the
structured (JSON-mode) attempt and `r2` the unstructured fallback
attempt; `parse` models `JSON.parse`.  Inside the first `try`, a parse
throw or a transport error falls to the fallback, while a parse success
that fails validation RETURNS `SCHEMA_INVALID` immediately — no second
request is issued on that path. -/
def getLLMPlanWithFallback (parse : String → Option Json) (r1 r2 : LlmResult) :
    PlanOutcome :=
  match r1 with
  | .ok content =>
      match parse content with
      | some j =>
          if validatePlan j then ⟨some j, "OK_JSON_MODE", false⟩
          else ⟨none, "SCHEMA_INVALID", false⟩
      | none => fallbackOutcome parse r2
  | .err _ => fallbackOutcome parse r2

/-! ## `src/index.js` — plan application -/

/-- A test artifact of a suggestion plan (`tests` items of the plan
schema).  `mode` is the raw string; `""` models an absent field, which
`applyPlan` defaults (`t.mode || "append_or_create"`). -/
structure TestArtifact where
  language : String
  framework : String
  path : String
  mode : String
  content : String
deriving DecidableEq

/-- A suggestion plan as consumed by the webhook handler after
acquisition: the `comments` and `tests` fields of the validated JSON. -/
structure SuggestionPlan where
  comments : List Comment
  tests : List TestArtifact
deriving DecidableEq

/-- Embedding of `ensureSafePath` (`src/index.js:520`): resolve `rel` against `root`
and fall back to `path.join(root, fallback)` when the resolved path does
not START WITH the resolved root (a plain string-prefix test). -/
def ensureSafePath (root rel fallback : String) : String :=
  let abs := resolvePath root rel
  if !(strStartsWith abs (resolveOne root)) then joinPath root fallback
  else abs

/-- Embedding of `withChecksum` (`src/index.js:526`): prepend the marker line
embedding the SHA-256 hex digest of the final body. -/
def withChecksum (hash : String → String) (content : String) : String :=
  "// neuron:generated checksum=" ++ hash content ++ "\n" ++ content ++ "\n"

/-- The characters of the fixed marker the idempotence regex looks
for. -/
def markerChars : List Char :=
  "neuron:generated checksum=".data

/-- A character matched by the regex class `[a-f0-9]`. -/
def isHexChar (c : Char) : Bool :=
  ('a' ≤ c && c ≤ 'f') || ('0' ≤ c && c ≤ '9')

/-- Does the marker followed by 64 hex characters start here?  One
position of the regex scan of `alreadyHasChecksum`. -/
def checksumAt (l : List Char) : Bool :=
  leadsWith markerChars l
    && ((l.drop markerChars.length).take 64).length == 64
    && ((l.drop markerChars.length).take 64).all isHexChar

/-- Scan every position for a checksum marker. -/
def hasChecksumScan : List Char → Bool
  | [] => false
  | a :: t => checksumAt (a :: t) || hasChecksumScan t

/-- Embedding of `alreadyHasChecksum` (`src/index.js:531`): the regex
`/neuron:generated checksum=([a-f0-9]\x7b64\x7d)/.test(content)`. -/
def alreadyHasChecksum (content : String) : Bool :=
  hasChecksumScan content.data

/-- The language-dependent default artifact path of `applyPlan`
(`src/index.js:540`). -/
def defaultPathFor (t : TestArtifact) : String :=
  if t.language == "java" then "src/test/java/NeuronGeneratedTest.java"
  else "__tests__/neuron.generated.test.js"

/-- The absolute target path `applyPlan` writes a given artifact to. -/
def targetOf (workdir : String) (t : TestArtifact) : String :=
  ensureSafePath workdir t.path (defaultPathFor t)

/-- One iteration of the `for (const t of plan.tests)` loop of
`applyPlan` (`src/index.js:539`), threading the file system and the
`written` list.  In the source, `existing` stays `""` when the file does
not exist, the skip test runs only when it does, and
`mode === "append_or_create" && existing` concatenates only onto a
non-empty prior file. -/
def applyTest (hash : String → String) (workdir : String)
    (st : Fs × List String) (t : TestArtifact) : Fs × List String :=
  let target := targetOf workdir t
  let mode := if t.mode == "" then "append_or_create" else t.mode
  match fsRead st.1 target with
  | some existing =>
      if alreadyHasChecksum existing && containsStr existing t.content then st
      else
        let next :=
          if mode == "append_or_create" && existing != "" then
            existing ++ "\n\n" ++ t.content
          else t.content
        (fsWrite st.1 target (withChecksum hash next),
         st.2 ++ [pathRelative workdir target])
  | none =>
      (fsWrite st.1 target (withChecksum hash t.content),
       st.2 ++ [pathRelative workdir target])

/-- Embedding of `applyPlan` (`src/index.js:535`): fold the artifact loop over the
plan's tests; the result carries the final file system, `tests_written`
(relative paths actually written) and `comments_posted`. -/
def applyPlan (hash : String → String) (workdir : String)
    (plan : SuggestionPlan) (fs : Fs) : Fs × List String × Nat :=
  let r := plan.tests.foldl (applyTest hash workdir) (fs, [])
  (r.1, r.2, plan.comments.length)

/-! ## `src/index.js` — webhook handler: baseline filter and posting -/

/-- The comment-filtering expression of the webhook handler
(`src/index.js:184`):
`(plan.comments || []).filter(c => !shouldSkipComment(workdir, baseline, c)).slice(0, 3)`. -/
def filteredCommentsOf (hash : String → String) (fs : Fs) (workdir : String)
    (baseline : BaselineStore) (plan : SuggestionPlan) : List Comment :=
  ((plan.comments).filter
    (fun c => !shouldSkipComment hash fs workdir baseline c)).take 3

/-- Embedding of `filteredPlan = { ...plan, comments: filteredComments }`
(`src/index.js:185`): the tests list is carried over unchanged. -/
def filterStep (hash : String → String) (fs : Fs) (workdir : String)
    (baseline : BaselineStore) (plan : SuggestionPlan) : SuggestionPlan :=
  { plan with comments := filteredCommentsOf hash fs workdir baseline plan }

/-- Embedding of `requirements.max_comments = cfg.max_inline_comments ?? 3`
(`src/index.js:160`): the configured maximum read from
`neuron.config.yml`.  It is placed in the provider prompt's requirements
and is used nowhere else. -/
def requestedMaxComments (cfgMaxInline : Option Nat) : Nat :=
  cfgMaxInline.getD 3

/-- The comments rendered into the combined PR comment by `postCombined`
(`src/index.js:597`): `const comments = plan.comments || []` iterated by
the `for (const c of comments)` loop — every element of the received
plan's comments list, in order, with no deduplication and no further
cap. -/
def postCombinedComments (plan : SuggestionPlan) : List Comment :=
  plan.comments

/-- The comments the webhook run posts for an acquired plan: the handler
passes `filteredPlan` to `postCombined` (`src/index.js:222`). -/
def postedCommentsOf (hash : String → String) (fs : Fs) (workdir : String)
    (baseline : BaselineStore) (plan : SuggestionPlan) : List Comment :=
  postCombinedComments (filterStep hash fs workdir baseline plan)

/-! ## Digest shape

A real SHA-256 hex digest is 64 characters over `[a-f0-9]`; `HexOk`
states exactly that, and `Digest` packages a digest function with the
guarantee.  Concrete instances below use a constant digest, which is all
the idempotence argument needs. -/

/-- The output shape of `crypto.createHash("sha256").digest("hex")`. -/
def HexOk (s : String) : Prop :=
  s.data.length = 64 ∧ s.data.all isHexChar = true

/-- A digest function together with the hex-output guarantee. -/
structure Digest where
  fn : String → String
  hex : ∀ s, HexOk (fn s)

/-! ## Concrete fixtures for witnesses and counterexamples -/

/-- A constant stand-in digest (64 `a`s), hex-shaped. -/
def constHashA : String → String :=
  fun _ => String.mk (List.replicate 64 'a')

/-- The 64-`a` string is hex-shaped. -/
theorem a64_hexOk : HexOk (String.mk (List.replicate 64 'a')) :=
  ⟨by decide, by decide⟩

/-- Fixture `constHashA` bundled with its shape proof. -/
def constDigestA : Digest :=
  ⟨constHashA, fun _ => a64_hexOk⟩

/-- A digest-like fixture whose value matches the stored baseline hash of
`fixedEntry`. -/
def hashH : String → String := fun _ => "h"

/-- A concrete parse fixture standing in for `JSON.parse` on the three
provider replies the acquisition counterexamples use. -/
def parseFix : String → Option Json := fun s =>
  if s == "\x7b\x7d" then some (Json.obj [])
  else if s == "INVALID" then some (Json.obj [])
  else if s == "GOOD" then
    some (Json.obj [("comments", Json.arr []), ("tests", Json.arr [])])
  else none

/-- An artifact whose declared path resolves to a sibling of the
workspace root that shares the root as a string prefix. -/
def escapingArtifact : TestArtifact :=
  ⟨"javascript", "jest", "../neuron-abcevil/x.test.js", "create", "X"⟩

/-- Two same-path `replace` artifacts with different contents. -/
def artifactA : TestArtifact := ⟨"javascript", "jest", "p.test.js", "replace", "AAA"⟩

/-- Second artifact of the non-idempotence counterexample. -/
def artifactB : TestArtifact := ⟨"javascript", "jest", "p.test.js", "replace", "BBB"⟩

/-- A plan whose two artifacts rewrite one another's target forever. -/
def clashPlan : SuggestionPlan := ⟨[], [artifactA, artifactB]⟩

/-- A single-artifact plan for the idempotence witness. -/
def soloPlan : SuggestionPlan := ⟨[], [artifactA]⟩

/-- A concrete baseline entry matching `fixedComment` under `hashH`. -/
def fixedEntry : BaselineEntry := ⟨"a:1:t", "a", "h", "", ""⟩

/-- The comment whose fingerprint is `fixedEntry.fp`. -/
def fixedComment : Comment := ⟨"a", 1, "LOW", "t", "b"⟩

/-! ## Claim C2 — path-escape containment (code bug) -/

/-- C2: `applyPlan` never writes outside the workspace root — REFUTED on
the code.  `ensureSafePath` checks containment with a bare string-prefix
test against the resolved root, so a declared path resolving to a sibling
directory whose name extends the root's (here `/tmp/neuron-abcevil`)
passes the check, and `applyPlan` writes the artifact outside the root.
The spec's own sample `../../etc/evil.test.js` is redirected to the
default path, but the sibling-prefix input escapes: the safety property
the spec states is the clear intent, and the missing trailing-separator
check is the slip. -/
theorem ensureSafePath_prefix_escape :
    underRoot "/tmp/neuron-abc" (targetOf "/tmp/neuron-abc" escapingArtifact) = false
  ∧ targetOf "/tmp/neuron-abc" escapingArtifact = "/tmp/neuron-abcevil/x.test.js"
  ∧ fsRead (applyPlan constHashA "/tmp/neuron-abc" ⟨[], [escapingArtifact]⟩ []).1
      "/tmp/neuron-abcevil/x.test.js" = some (withChecksum constHashA "X")
  ∧ ensureSafePath "/tmp/neuron-abc" "../../etc/evil.test.js"
      "__tests__/neuron.generated.test.js"
      = "/tmp/neuron-abc/__tests__/neuron.generated.test.js" := by
  refine ⟨by decide, by decide, by decide, by decide⟩

/-! ## Claim C4 — empty object is rejected, not coerced (corrected) -/

/-- C4 counterexample: a provider response parsing to `\x7b\x7d` is NOT
accepted — `validatePlan` rejects it (both keys are required and no
coercion step exists), and the structured attempt terminates with
`SCHEMA_INVALID` and no plan. -/
theorem emptyObject_rejected_counterexample :
    validatePlan (Json.obj []) = false
  ∧ (getLLMPlanWithFallback parseFix (.ok "\x7b\x7d") (.ok "ANY")).plan.isNone = true
  ∧ (getLLMPlanWithFallback parseFix (.ok "\x7b\x7d") (.ok "ANY")).code
      = "SCHEMA_INVALID" :=
  ⟨rfl, rfl, rfl⟩

/-- C4 (amended): a provider response that parses to the empty object is
not coerced to `comments: [], tests: []`; it fails schema validation
(both keys are required) and the protocol terminates with
`SCHEMA_INVALID`, a null plan, and no fallback request. -/
theorem getLLMPlan_emptyObject_schemaInvalid (parse : String → Option Json)
    (content : String) (r2 : LlmResult)
    (h : parse content = some (Json.obj [])) :
    getLLMPlanWithFallback parse (.ok content) r2
      = ⟨none, "SCHEMA_INVALID", false⟩ := by
  simp only [getLLMPlanWithFallback, h]
  rfl

/-- C4 witness: the amended behaviour at the concrete `\x7b\x7d` reply. -/
theorem getLLMPlan_emptyObject_schemaInvalid_witness :
    parseFix "\x7b\x7d" = some (Json.obj [])
  ∧ getLLMPlanWithFallback parseFix (.ok "\x7b\x7d") (.ok "ANY")
      = ⟨none, "SCHEMA_INVALID", false⟩ :=
  ⟨rfl, getLLMPlan_emptyObject_schemaInvalid parseFix "\x7b\x7d" (.ok "ANY") rfl⟩

/-! ## Claim C5 — no corrective follow-up on validation failure
(corrected) -/

/-- C5 counterexample: with a structured reply that parses but fails
validation, the protocol terminates with `SCHEMA_INVALID` and the second
provider request is never issued (`fallbackIssued = false`) — even
though a compliant reply (`"GOOD"`, which parses to a valid plan) was
available for a follow-up.  This refutes "issues exactly one corrective
follow-up request". -/
theorem schema_retry_never_issued_counterexample :
    (getLLMPlanWithFallback parseFix (.ok "INVALID") (.ok "GOOD")).fallbackIssued
      = false
  ∧ (getLLMPlanWithFallback parseFix (.ok "INVALID") (.ok "GOOD")).code
      = "SCHEMA_INVALID"
  ∧ validatePlan (Json.obj [("comments", Json.arr []), ("tests", Json.arr [])])
      = true :=
  ⟨rfl, rfl, rfl⟩

/-- C5 (amended): when the structured attempt's response parses
successfully but fails schema validation, the protocol terminates
immediately with `SCHEMA_INVALID` (validator detail attached in the
source) and issues no corrective follow-up; the single fallback request
exists only for parse or transport failures of the structured attempt. -/
theorem getLLMPlan_validationFailure_terminal (parse : String → Option Json)
    (content : String) (j : Json) (r2 : LlmResult)
    (h1 : parse content = some j) (h2 : validatePlan j = false) :
    getLLMPlanWithFallback parse (.ok content) r2
      = ⟨none, "SCHEMA_INVALID", false⟩ := by
  simp only [getLLMPlanWithFallback, h1, h2]
  rfl

/-- C5 witness: the amended behaviour at the concrete invalid reply. -/
theorem getLLMPlan_validationFailure_terminal_witness :
    parseFix "INVALID" = some (Json.obj [])
  ∧ validatePlan (Json.obj []) = false
  ∧ getLLMPlanWithFallback parseFix (.ok "INVALID") (.ok "GOOD")
      = ⟨none, "SCHEMA_INVALID", false⟩ :=
  ⟨rfl, rfl,
    getLLMPlan_validationFailure_terminal parseFix "INVALID" (Json.obj [])
      (.ok "GOOD") rfl rfl⟩

/-! ## Claim C6 — fingerprint ignores severity and body (confirmed) -/

/-- C6: any two comments agreeing on path, line and title receive the
same fingerprint, whatever their severity and body. -/
theorem fpForComment_ignores_severity_body (c1 c2 : Comment)
    (hp : c1.path = c2.path) (hl : c1.line = c2.line)
    (ht : c1.title = c2.title) :
    fpForComment c1 = fpForComment c2 := by
  simp [fpForComment, hp, hl, ht]

/-- C6 witness: concrete comments differing only in severity and body. -/
theorem fpForComment_ignores_severity_body_witness :
    (Comment.mk "a.js" 3 "LOW" "T" "b1").path = (Comment.mk "a.js" 3 "HIGH" "T" "b2").path
  ∧ (Comment.mk "a.js" 3 "LOW" "T" "b1").line = (Comment.mk "a.js" 3 "HIGH" "T" "b2").line
  ∧ (Comment.mk "a.js" 3 "LOW" "T" "b1").title = (Comment.mk "a.js" 3 "HIGH" "T" "b2").title
  ∧ fpForComment (Comment.mk "a.js" 3 "LOW" "T" "b1")
      = fpForComment (Comment.mk "a.js" 3 "HIGH" "T" "b2") :=
  ⟨rfl, rfl, rfl,
    fpForComment_ignores_severity_body
      (Comment.mk "a.js" 3 "LOW" "T" "b1") (Comment.mk "a.js" 3 "HIGH" "T" "b2")
      rfl rfl rfl⟩

/-! ## Claim C10 — the fingerprint is not injective (confirmed) -/

/-- C10: the `:`-joined composite key collides on distinct
(path, line, title) triples, since paths and titles may themselves
contain `:`; both comments below fingerprint to `a:1:2:t`. -/
theorem fpForComment_not_injective :
    ∃ c1 c2 : Comment,
      fpForComment c1 = fpForComment c2
      ∧ (c1.path, c1.line, c1.title) ≠ (c2.path, c2.line, c2.title) := by
  refine ⟨⟨"a:1", 2, "LOW", "t", ""⟩, ⟨"a", 1, "LOW", "2:t", ""⟩, by decide, by decide⟩

/-! ## Claim C1 — the suppression contract of `shouldSkipComment`
(confirmed, under the data model's one-entry-per-fingerprint
invariant) -/

/-- Helper: `shouldSkipComment` against a store with pairwise-distinct
fingerprints equals an existential scan of the whole store.  The
distinctness hypothesis is the spec's own BaselineEntry data-model
invariant (one entry per previously-surfaced suggestion); without it the
source's `find` consults only the first entry with the fingerprint. -/
theorem shouldSkip_eq_any (hash : String → String) (fs : Fs) (workdir : String)
    (c : Comment) (l : List BaselineEntry)
    (hnd : (l.map (fun e => e.fp)).Nodup) :
    shouldSkipComment hash fs workdir ⟨l⟩ c
      = l.any (fun e =>
          e.fp == fpForComment c && e.file_sha != ""
          && fileSha hash fs (joinPath workdir c.path) != ""
          && e.file_sha == fileSha hash fs (joinPath workdir c.path)) := by
  induction l with
  | nil => rfl
  | cons e t ih =>
      rw [List.map_cons, List.nodup_cons] at hnd
      obtain ⟨hnotin, hndt⟩ := hnd
      cases hbe : (e.fp == fpForComment c) with
      | true =>
          have hpe : e.fp = fpForComment c := eq_of_beq hbe
          have hany : t.any (fun e' =>
              e'.fp == fpForComment c && e'.file_sha != ""
              && fileSha hash fs (joinPath workdir c.path) != ""
              && e'.file_sha == fileSha hash fs (joinPath workdir c.path)) = false := by
            rw [List.any_eq_false]
            intro e' he'
            have hne : e'.fp ≠ fpForComment c := by
              intro hh
              exact hnotin (by
                rw [← hpe] at hh
                exact hh ▸ List.mem_map_of_mem (fun e => e.fp) he')
            simp [hne]
          have hf : List.find? (fun s => s.fp == fpForComment c) (e :: t) = some e :=
            List.find?_cons_of_pos _ hbe
          simp only [shouldSkipComment, List.any_cons, hbe, hany,
            Bool.true_and, Bool.or_false]
          rw [hf]
      | false =>
          have hf : List.find? (fun s => s.fp == fpForComment c) (e :: t)
              = List.find? (fun s => s.fp == fpForComment c) t :=
            List.find?_cons_of_neg _ (by simp [hbe])
          simp only [shouldSkipComment, List.any_cons, hbe,
            Bool.false_and, Bool.false_or]
          rw [hf]
          exact ih hndt

/-- C1: for a store obeying the one-entry-per-fingerprint data-model
invariant, `shouldSkipComment` is true exactly when the store contains an
entry for the comment's fingerprint whose stored `file_sha` is non-empty,
the current content hash of the comment's file is non-empty, and the two
hashes agree (`List.any` is the executable form of "contains an entry
such that"). -/
theorem shouldSkipComment_spec (hash : String → String) (fs : Fs)
    (workdir : String) (baseline : BaselineStore) (c : Comment)
    (hnd : (baseline.suggestions.map (fun e => e.fp)).Nodup) :
    shouldSkipComment hash fs workdir baseline c
      = baseline.suggestions.any (fun e =>
          e.fp == fpForComment c && e.file_sha != ""
          && fileSha hash fs (joinPath workdir c.path) != ""
          && e.file_sha == fileSha hash fs (joinPath workdir c.path)) :=
  shouldSkip_eq_any hash fs workdir c baseline.suggestions hnd

/-- C1 witness: a one-entry store whose stored hash matches the current
file hash makes `shouldSkipComment` true, and the scan agrees. -/
theorem shouldSkipComment_spec_witness :
    (([fixedEntry].map (fun e => e.fp)).Nodup)
  ∧ shouldSkipComment hashH [("/w/a", "x")] "/w" ⟨[fixedEntry]⟩ fixedComment
      = [fixedEntry].any (fun e =>
          e.fp == fpForComment fixedComment && e.file_sha != ""
          && fileSha hashH [("/w/a", "x")] (joinPath "/w" fixedComment.path) != ""
          && e.file_sha == fileSha hashH [("/w/a", "x")] (joinPath "/w" fixedComment.path)) :=
  ⟨by decide,
    shouldSkipComment_spec hashH [("/w/a", "x")] "/w" ⟨[fixedEntry]⟩ fixedComment
      (by decide)⟩

/-! ## Claim C9 — `readBaseline` never fails (confirmed) -/

/-- C9: loading the baseline returns the empty store — never an error —
when the file is absent, when `JSON.parse` would throw, or when the
parsed value lacks an array-valued `suggestions` field; otherwise it
returns the parsed store. -/
theorem readBaseline_resilient (file : Option String)
    (parse : String → Option Json) :
    (file = none → readBaseline file parse = ⟨[]⟩)
  ∧ (∀ s, file = some s → parse s = none → readBaseline file parse = ⟨[]⟩)
  ∧ (∀ s j, file = some s → parse s = some j →
      (∀ l, jGet j "suggestions" ≠ some (.arr l)) →
      readBaseline file parse = ⟨[]⟩)
  ∧ (∀ s j l, file = some s → parse s = some j →
      jGet j "suggestions" = some (.arr l) →
      readBaseline file parse = ⟨l.map entryOfJson⟩) := by
  refine ⟨?_, ?_, ?_, ?_⟩
  · rintro rfl; rfl
  · rintro s rfl hp; simp [readBaseline, hp]
  · rintro s j rfl hp hne
    simp only [readBaseline, hp]
  · rintro s j l rfl hp hj
    simp [readBaseline, hp, hj]

/-- C9 witness: a file whose content `JSON.parse` rejects yields the
empty store. -/
theorem readBaseline_resilient_witness :
    (some "BAD" : Option String) = some "BAD"
  ∧ parseFix "BAD" = none
  ∧ readBaseline (some "BAD") parseFix = ⟨[]⟩ :=
  ⟨rfl, rfl, (readBaseline_resilient (some "BAD") parseFix).2.1 "BAD" rfl rfl⟩

/-! ## Claim C7 — baseline filter semantics (corrected: the truncation
cap is the constant 3, not the configured maximum) -/

/-- A comment pair distinct in path for the filter counterexample. -/
def comX : Comment := ⟨"x.js", 1, "LOW", "X", ""⟩

/-- Second comment of the filter counterexample. -/
def comY : Comment := ⟨"y.js", 2, "LOW", "Y", ""⟩

/-- C7 counterexample: with `max_inline_comments: 1` configured (the
configured maximum the handler reads at `src/index.js:160`), a plan of
two surviving comments is NOT truncated to the configured maximum — the
handler's `.slice(0, 3)` keeps both. -/
theorem filter_ignores_configured_cap_counterexample :
    requestedMaxComments (some 1) = 1
  ∧ (filterStep hashH [] "/w" ⟨[]⟩ ⟨[comX, comY], []⟩).comments = [comX, comY]
  ∧ ¬ ((filterStep hashH [] "/w" ⟨[]⟩ ⟨[comX, comY], []⟩).comments.length
        ≤ requestedMaxComments (some 1)) := by
  refine ⟨rfl, by decide, by decide⟩

/-- C7 (amended): the filtering step drops exactly the comments
`shouldSkipComment` suppresses, preserves the original order, truncates
to the CONSTANT 3 (the configured `max_inline_comments` only feeds the
provider prompt's requirements), and carries the tests list over
unchanged. -/
theorem filterStep_spec (hash : String → String) (fs : Fs) (workdir : String)
    (baseline : BaselineStore) (plan : SuggestionPlan) :
    (filterStep hash fs workdir baseline plan).tests = plan.tests
  ∧ (filterStep hash fs workdir baseline plan).comments
      = (plan.comments.filter
          (fun c => !shouldSkipComment hash fs workdir baseline c)).take 3
  ∧ List.Sublist (filterStep hash fs workdir baseline plan).comments plan.comments
  ∧ (filterStep hash fs workdir baseline plan).comments.length ≤ 3 := by
  refine ⟨rfl, rfl, ?_, ?_⟩
  · exact (List.take_sublist _ _).trans (List.filter_sublist _)
  · exact List.length_take_le _ _

/-! ## Claim C8 — no dedup and no extra cap before posting
(corrected) -/

/-- C8 counterexample: a plan containing the same comment twice (equal
fingerprints), none suppressed by the (empty) baseline: BOTH copies reach
the posted output, refuting "at most one of them appears". -/
theorem posted_duplicates_counterexample :
    postedCommentsOf hashH [] "/w" ⟨[]⟩ ⟨[fixedComment, fixedComment], []⟩
      = [fixedComment, fixedComment]
  ∧ ¬ (((postedCommentsOf hashH [] "/w" ⟨[]⟩
          ⟨[fixedComment, fixedComment], []⟩).filter
            (fun x => fpForComment x == fpForComment fixedComment)).length ≤ 1) := by
  refine ⟨by decide, by decide⟩

/-- C8 (amended): the run posts exactly the comments surviving the Plan
Filter, in order and duplicates included — there is no per-run
fingerprint deduplication and no posting cap beyond the filter's
constant 3. -/
theorem postCombined_no_dedup (hash : String → String) (fs : Fs)
    (workdir : String) (baseline : BaselineStore) (plan : SuggestionPlan) :
    postedCommentsOf hash fs workdir baseline plan
      = filteredCommentsOf hash fs workdir baseline plan
  ∧ (postedCommentsOf hash fs workdir baseline plan).length ≤ 3 :=
  ⟨rfl, List.length_take_le _ _⟩

/-! ## Claim C3 — idempotence of `applyPlan` (corrected)

Helper lemmas about the substring scans, then an invariant argument: once
an artifact's target file carries the checksum marker and contains the
artifact's content, `applyTest` skips it, and a first application
establishes that state at every target provided no two artifacts fight
over the same target. -/

/-- Appending strings concatenates the character lists. -/
theorem strData_append (s t : String) : (s ++ t).data = s.data ++ t.data := rfl

/-- A list begins with itself extended by anything. -/
theorem leadsWith_append (n b : List Char) : leadsWith n (n ++ b) = true := by
  induction n with
  | nil => rfl
  | cons a t ih => simp [leadsWith, ih]

/-- A list begins with itself. -/
theorem leadsWith_refl (l : List Char) : leadsWith l l = true := by
  have h := leadsWith_append l []
  rwa [List.append_nil] at h

/-- A leading occurrence survives extending the list on the right. -/
theorem leadsWith_extend (n l c : List Char) (h : leadsWith n l = true) :
    leadsWith n (l ++ c) = true := by
  induction n generalizing l with
  | nil => rfl
  | cons a n' ih =>
      cases l with
      | nil => exact absurd h (by simp [leadsWith])
      | cons b l' =>
          simp only [leadsWith, Bool.and_eq_true] at h
          simp [leadsWith, h.1, ih l' h.2]

/-- The empty needle occurs everywhere. -/
theorem listContains_nil (l : List Char) : listContains l [] = true := by
  cases l <;> simp [listContains, leadsWith, List.isEmpty]

/-- A leading occurrence is an occurrence. -/
theorem listContains_of_leads (n l : List Char) (h : leadsWith n l = true) :
    listContains l n = true := by
  cases l with
  | nil =>
      cases n with
      | nil => rfl
      | cons a t => exact absurd h (by simp [leadsWith])
  | cons a t => simp [listContains, h]

/-- Every list contains itself. -/
theorem listContains_self (l : List Char) : listContains l l = true :=
  listContains_of_leads l l (leadsWith_refl l)

/-- An occurrence survives prepending. -/
theorem listContains_append_of (a b n : List Char)
    (h : listContains b n = true) : listContains (a ++ b) n = true := by
  induction a with
  | nil => exact h
  | cons x xs ih => simp [listContains, ih]

/-- An occurrence survives appending. -/
theorem listContains_append_right (b c n : List Char)
    (h : listContains b n = true) : listContains (b ++ c) n = true := by
  induction b with
  | nil =>
      cases n with
      | nil => exact listContains_nil c
      | cons x t => exact absurd h (by simp [listContains, List.isEmpty])
  | cons x xs ih =>
      simp only [listContains, Bool.or_eq_true] at h
      rcases h with h | h
      · exact listContains_of_leads _ _ (leadsWith_extend _ _ _ h)
      · simp [listContains, ih h]

/-- A string contains its own suffix. -/
theorem containsStr_suffix (a b : String) : containsStr (a ++ b) b = true := by
  unfold containsStr
  rw [strData_append]
  exact listContains_append_of _ _ _ (listContains_self _)

/-- A string contains itself. -/
theorem containsStr_self (s : String) : containsStr s s = true :=
  listContains_self s.data

/-- The position right after the marker passes the checksum test when 64
hex characters follow. -/
theorem checksumAt_marker (hx r : List Char) (h1 : hx.length = 64)
    (h2 : hx.all isHexChar = true) :
    checksumAt (markerChars ++ (hx ++ r)) = true := by
  unfold checksumAt
  rw [leadsWith_append, List.drop_left, ← h1, List.take_left]
  simp [h1, h2]

/-- The scan finds a marker occurring anywhere. -/
theorem hasChecksumScan_of_at (l : List Char) (h : checksumAt l = true) :
    hasChecksumScan l = true := by
  cases l with
  | nil => exact absurd h (by decide)
  | cons a t => simp [hasChecksumScan, h]

/-- The scan finds a well-formed marker after any front matter. -/
theorem hasChecksumScan_parts (a hx r : List Char) (h1 : hx.length = 64)
    (h2 : hx.all isHexChar = true) :
    hasChecksumScan (a ++ (markerChars ++ (hx ++ r))) = true := by
  induction a with
  | nil => exact hasChecksumScan_of_at _ (checksumAt_marker hx r h1 h2)
  | cons x xs ih => simp [hasChecksumScan, ih]

/-- The character list of a marked file, grouped for the scan lemma. -/
theorem withChecksum_data (hash : String → String) (content : String) :
    (withChecksum hash content).data
      = "// ".data
        ++ (markerChars
            ++ ((hash content).data ++ ("\n" ++ content ++ "\n").data)) := by
  simp [withChecksum, strData_append, markerChars, List.append_assoc]

/-- The character list of a marked file, grouped around the body. -/
theorem withChecksum_data_body (hash : String → String) (content : String) :
    (withChecksum hash content).data
      = ("// neuron:generated checksum=" ++ hash content ++ "\n").data
        ++ (content.data ++ "\n".data) := by
  simp [withChecksum, strData_append, List.append_assoc]

/-- A hex-shaped digest makes `withChecksum` output match the
idempotence regex. -/
theorem alreadyHasChecksum_withChecksum (hash : String → String)
    (content : String) (h : HexOk (hash content)) :
    alreadyHasChecksum (withChecksum hash content) = true := by
  unfold alreadyHasChecksum
  rw [withChecksum_data]
  exact hasChecksumScan_parts _ _ _ h.1 h.2

/-- A marked file contains whatever its body contains. -/
theorem containsStr_withChecksum (hash : String → String) (content sub : String)
    (h : containsStr content sub = true) :
    containsStr (withChecksum hash content) sub = true := by
  unfold containsStr
  rw [withChecksum_data_body]
  exact listContains_append_of _ _ _ (listContains_append_right _ _ _ h)

/-- The target file of `t` already carries a checksum marker and the
artifact's content verbatim — the state under which `applyTest` skips. -/
def GoodFor (workdir : String) (fs : Fs) (t : TestArtifact) : Prop :=
  ∃ c, fsRead fs (targetOf workdir t) = some c
    ∧ alreadyHasChecksum c = true ∧ containsStr c t.content = true

/-- Reading back a fresh write. -/
theorem fsRead_write_self (fs : Fs) (p c : String) :
    fsRead (fsWrite fs p c) p = some c := by
  simp [fsRead, fsWrite]

/-- A write at a different path does not perturb a read. -/
theorem fsRead_write_ne (fs : Fs) (p c q : String) (h : q ≠ p) :
    fsRead (fsWrite fs p c) q = fsRead fs q := by
  unfold fsRead fsWrite
  have hf : List.find? (fun e => e.1 == q) ((p, c) :: fs)
      = List.find? (fun e => e.1 == q) fs :=
    List.find?_cons_of_neg _ (fun hb => (Ne.symm h) (eq_of_beq hb))
  rw [hf]

/-- Step `applyTest` skips an artifact whose target is already good. -/
theorem applyTest_skip (hash : String → String) (workdir : String)
    (st : Fs × List String) (t : TestArtifact)
    (hg : GoodFor workdir st.1 t) : applyTest hash workdir st t = st := by
  obtain ⟨c, hr, h1, h2⟩ := hg
  simp [applyTest, hr, h1, h2]

/-- After `applyTest`, the processed artifact's own target is good. -/
theorem applyTest_good (d : Digest) (workdir : String)
    (st : Fs × List String) (t : TestArtifact) :
    GoodFor workdir (applyTest d.fn workdir st t).1 t := by
  cases hr : fsRead st.1 (targetOf workdir t) with
  | none =>
      refine ⟨withChecksum d.fn t.content, ?_,
        alreadyHasChecksum_withChecksum _ _ (d.hex _),
        containsStr_withChecksum _ _ _ (containsStr_self _)⟩
      simp only [applyTest, hr]
      exact fsRead_write_self _ _ _
  | some existing =>
      cases hsk : (alreadyHasChecksum existing && containsStr existing t.content) with
      | true =>
          rw [Bool.and_eq_true] at hsk
          refine ⟨existing, ?_, hsk.1, hsk.2⟩
          have hskip : applyTest d.fn workdir st t = st := by
            rw [← Bool.and_eq_true] at hsk
            simp [applyTest, hr, hsk]
          rw [hskip]
          exact hr
      | false =>
          have hcont :
              containsStr
                (if ((if t.mode == "" then "append_or_create" else t.mode)
                      == "append_or_create" && existing != "") then
                    existing ++ "\n\n" ++ t.content
                  else t.content) t.content = true := by
            cases hc : ((if t.mode == "" then "append_or_create" else t.mode)
                == "append_or_create" && existing != "") with
            | true =>
                simp only [hc, if_true]
                exact containsStr_suffix (existing ++ "\n\n") t.content
            | false =>
                simp only [hc, Bool.false_eq_true, if_false]
                exact containsStr_self _
          refine ⟨withChecksum d.fn
            (if ((if t.mode == "" then "append_or_create" else t.mode)
                  == "append_or_create" && existing != "") then
                existing ++ "\n\n" ++ t.content
              else t.content), ?_,
            alreadyHasChecksum_withChecksum _ _ (d.hex _),
            containsStr_withChecksum _ _ _ hcont⟩
          simp only [applyTest, hr, hsk, Bool.false_eq_true, if_false]
          exact fsRead_write_self _ _ _

/-- Step `applyTest` on one artifact leaves a different target's good state
intact. -/
theorem applyTest_preserve (hash : String → String) (workdir : String)
    (st : Fs × List String) (t t' : TestArtifact)
    (hne : targetOf workdir t' ≠ targetOf workdir t)
    (hg : GoodFor workdir st.1 t') :
    GoodFor workdir (applyTest hash workdir st t).1 t' := by
  obtain ⟨c, hr, h1, h2⟩ := hg
  refine ⟨c, ?_, h1, h2⟩
  cases hr0 : fsRead st.1 (targetOf workdir t) with
  | none =>
      simp only [applyTest, hr0]
      rw [fsRead_write_ne _ _ _ _ hne]
      exact hr
  | some existing =>
      cases hsk : (alreadyHasChecksum existing && containsStr existing t.content) with
      | true =>
          simp only [applyTest, hr0, hsk, if_true]
          exact hr
      | false =>
          simp only [applyTest, hr0, hsk, Bool.false_eq_true, if_false]
          rw [fsRead_write_ne _ _ _ _ hne]
          exact hr

/-- Folding over artifacts that all target other paths preserves a good
state. -/
theorem foldl_preserve (hash : String → String) (workdir : String)
    (tests : List TestArtifact) (st : Fs × List String) (t' : TestArtifact)
    (hall : ∀ t ∈ tests, targetOf workdir t' ≠ targetOf workdir t)
    (hg : GoodFor workdir st.1 t') :
    GoodFor workdir (tests.foldl (applyTest hash workdir) st).1 t' := by
  induction tests generalizing st with
  | nil => exact hg
  | cons t ts ih =>
      exact ih (applyTest hash workdir st t)
        (fun x hx => hall x (List.mem_cons_of_mem _ hx))
        (applyTest_preserve _ _ _ _ _ (hall t (List.mem_cons_self _ _)) hg)

/-- After a full first pass with pairwise-distinct targets, every
artifact's target is good. -/
theorem run1_good (d : Digest) (workdir : String) (tests : List TestArtifact)
    (st : Fs × List String)
    (hnd : (tests.map (targetOf workdir)).Nodup) :
    ∀ t ∈ tests, GoodFor workdir (tests.foldl (applyTest d.fn workdir) st).1 t := by
  induction tests generalizing st with
  | nil => intro t ht; exact absurd ht (List.not_mem_nil t)
  | cons t0 ts ih =>
      rw [List.map_cons, List.nodup_cons] at hnd
      obtain ⟨hnotin, hndt⟩ := hnd
      intro t ht
      rw [List.foldl_cons]
      rcases List.mem_cons.mp ht with rfl | hmem
      · refine foldl_preserve _ _ _ _ _ ?_ (applyTest_good d workdir st t)
        intro x hx heq
        exact hnotin (heq ▸ List.mem_map_of_mem _ hx)
      · exact ih (applyTest d.fn workdir st t0) hndt t hmem

/-- A pass over already-good targets is a strict no-op on the fold
state. -/
theorem run2_noop (hash : String → String) (workdir : String)
    (tests : List TestArtifact) (st : Fs × List String)
    (hall : ∀ t ∈ tests, GoodFor workdir st.1 t) :
    tests.foldl (applyTest hash workdir) st = st := by
  induction tests with
  | nil => rfl
  | cons t ts ih =>
      rw [List.foldl_cons, applyTest_skip _ _ _ _ (hall t (List.mem_cons_self _ _))]
      exact ih (fun x hx => hall x (List.mem_cons_of_mem _ hx))

/-- C3 counterexample: this plan's two `replace` artifacts target the
same file with different contents, so each overwrites the other's
output and the skip check (marker plus verbatim containment) fails for
both on the second application — `tests_written` is not empty on the
second run.  (Identical same-target artifacts, by contrast, can still
be skipped on re-run; this input is what forces the distinct-targets
proviso of the amended claim.) -/
theorem applyPlan_not_idempotent_counterexample :
    (applyPlan constHashA "/w" clashPlan (applyPlan constHashA "/w" clashPlan []).1).2.1
      = ["p.test.js", "p.test.js"] := by decide

/-- C3 (amended): `applyPlan` is idempotent for every plan whose test
artifacts resolve to pairwise-distinct target files: the second
application against the state left by the first returns the same file
system and an empty `tests_written` list, because each target then
carries the embedded checksum marker and contains its artifact's
proposed content verbatim. -/
theorem applyPlan_idempotent (d : Digest) (workdir : String)
    (plan : SuggestionPlan) (fs : Fs)
    (hnd : (plan.tests.map (targetOf workdir)).Nodup) :
    (applyPlan d.fn workdir plan (applyPlan d.fn workdir plan fs).1).1
      = (applyPlan d.fn workdir plan fs).1
  ∧ (applyPlan d.fn workdir plan (applyPlan d.fn workdir plan fs).1).2.1 = [] := by
  have h1 : ∀ t ∈ plan.tests,
      GoodFor workdir (applyPlan d.fn workdir plan fs).1 t :=
    run1_good d workdir plan.tests (fs, []) hnd
  have h2 : plan.tests.foldl (applyTest d.fn workdir)
        ((applyPlan d.fn workdir plan fs).1, [])
      = ((applyPlan d.fn workdir plan fs).1, []) :=
    run2_noop _ _ _ _ h1
  constructor
  · show (plan.tests.foldl (applyTest d.fn workdir)
        ((applyPlan d.fn workdir plan fs).1, [])).1
      = (applyPlan d.fn workdir plan fs).1
    rw [h2]
  · show (plan.tests.foldl (applyTest d.fn workdir)
        ((applyPlan d.fn workdir plan fs).1, [])).2 = []
    rw [h2]

/-- C3 witness: a single-artifact plan; the second application writes
nothing. -/
theorem applyPlan_idempotent_witness :
    ((soloPlan.tests.map (targetOf "/w")).Nodup)
  ∧ (applyPlan constDigestA.fn "/w" soloPlan
        (applyPlan constDigestA.fn "/w" soloPlan []).1).2.1 = [] :=
  ⟨by decide, (applyPlan_idempotent constDigestA "/w" soloPlan [] (by decide)).2⟩
